import Mathlib

/-!
Verification of the upsd telegraf input plugin
(src/plugins/inputs/upsd/upsd.go).

The Go code is shallowly embedded: maps become functions to `Option`,
Go `int64` arithmetic becomes `Int` with an explicit two's-complement
reduction `wrap64`, and the network client (the external `nut` package)
becomes an oracle of per-phase outcomes.  `fetchVariables` additionally
reports how many times `client.Disconnect()` runs on the modelled path,
so that the connection-release discipline can be stated.
-/

namespace Upsd

/-- Dynamically-typed scalar held in a `nut.Variable` (Go `interface\x7b\x7d`).
Float values carry their `%v`-rendered text: the plugin never computes
with a float, it only ever formats values textually. -/
inductive VarValue where
  | vstr (s : String)
  | vint (n : Int)
  | vfloat (rendered : String)
  | vbool (b : Bool)
deriving DecidableEq, Repr

/-- One `nut.Variable`: a (Name, Value) pair. -/
structure Variable where
  Name : String
  Value : VarValue
deriving DecidableEq, Repr

/-- A Go `map[string]interface\x7b\x7d` lookup result, as a function. -/
abbrev Metrics := String → Option VarValue

/-- A Go `map[string]string` (the tag set), as a function. -/
abbrev Tags := String → Option String

def emptyMetrics : Metrics := fun _ => none

def emptyTags : Tags := fun _ => none

/-- Go map assignment `m[k] = v` on the metrics map. -/
def metricsSet (m : Metrics) (k : String) (v : VarValue) : Metrics :=
  fun q => if q = k then some v else m q

/-- Go map assignment `t[k] = v` on a tag map. -/
def tagsSet (t : Tags) (k : String) (v : String) : Tags :=
  fun q => if q = k then some v else t q

/-- `fmt.Sprintf("%v", x)` on the result of a map lookup: Go renders a
missing-key lookup (a nil interface) as the literal text `"<nil>"`. -/
def sprintfV : Option VarValue → String
  | none => "<nil>"
  | some (.vstr s) => s
  | some (.vint n) => toString n
  | some (.vfloat rendered) => rendered
  | some (.vbool b) => if b then "true" else "false"

/-- The loop at the top of `gatherUps`: `metrics[variable.Name] = variable.Value`
for each variable in order (a later duplicate name overwrites an earlier one,
exactly as in a Go map). -/
def normalize (vars : List Variable) : Metrics :=
  vars.foldl (fun m v => metricsSet m v.Name v.Value) emptyMetrics

/-- ASCII whitespace as recognized by Go `unicode.IsSpace` (the source
status strings are ASCII). -/
def isSpaceGo (c : Char) : Bool :=
  c = ' ' || c = '\t' || c = '\n' || c = '\r' || c = '\x0b' || c = '\x0c'

/-- Helper for `stringFields`: walks the character list, accumulating the
current (reversed) token. -/
def fieldsAux : List Char → List Char → List String
  | [], cur => if cur.isEmpty then [] else [String.mk cur.reverse]
  | c :: rest, cur =>
    if isSpaceGo c then
      if cur.isEmpty then fieldsAux rest []
      else String.mk cur.reverse :: fieldsAux rest []
    else fieldsAux rest (c :: cur)

/-- Go `strings.Fields`: split around runs of whitespace, no empty tokens. -/
def stringFields (s : String) : List String := fieldsAux s.data []

/-- One row of the status table: a status token, its apcupsd-compatible
bit position, and the tag key recorded when the token is present. -/
structure StatusEntry where
  tok : String
  bit : Nat
  tag : String
deriving DecidableEq, Repr

/-- The eight `if choice.Contains(...)` blocks of `mapStatus`, in source
order: CAL=bit0, TRIM=bit1, BOOST=bit2, OL=bit3, OB=bit4, OVER=bit5,
LB=bit6, RB=bit7. -/
def statusTable : List StatusEntry :=
  [⟨"CAL", 0, "status_CAL"⟩, ⟨"TRIM", 1, "status_TRIM"⟩,
   ⟨"BOOST", 2, "status_BOOST"⟩, ⟨"OL", 3, "status_OL"⟩,
   ⟨"OB", 4, "status_OB"⟩, ⟨"OVER", 5, "status_OVER"⟩,
   ⟨"LB", 6, "status_LB"⟩, ⟨"RB", 7, "status_RB"⟩]

/-- One `if choice.Contains(e.tok, statuses) \x7b status |= 1 << e.bit;
tags[e.tag] = "true" \x7d` block of `mapStatus`. -/
def statusStep (statuses : List String) (st : Nat × Tags) (e : StatusEntry) :
    Nat × Tags :=
  cond (statuses.contains e.tok)
    (st.1 ||| (1 <<< e.bit), tagsSet st.2 e.tag "true")
    st

/-- `(u *Upsd) mapStatus`: stringify `metrics["ups.status"]`, split into
fields, then run the eight status blocks in order.  Returns the bitmask
(Go `uint64`; it only ever holds the low 8 bits, so `Nat` is exact) and
the updated tag map. -/
def mapStatus (metrics : Metrics) (tags : Tags) : Nat × Tags :=
  let statusString := sprintfV (metrics "ups.status")
  let statuses := stringFields statusString
  statusTable.foldl (statusStep statuses) (0, tags)

/-- Two's-complement reduction of a Go `int64` arithmetic result. -/
def wrap64 (n : Int) : Int := (n + 2 ^ 63) % 2 ^ 64 - 2 ^ 63

/-- The type assertion `metrics["battery.runtime"].(int64)`:
`some r` when the stored value is an int64, `none` otherwise. -/
def runtimeInt : Option VarValue → Option Int
  | some (.vint n) => some n
  | _ => none

/-- A value stored in the `fields` map literal of `gatherUps`. -/
inductive FieldValue where
  | fUInt (n : Nat)
  | fInt (n : Int)
  | fVar (v : Option VarValue)
deriving DecidableEq, Repr

/-- One emitted metric record: `acc.AddFields("upsd", fields, tags)`. -/
structure Metric where
  measurement : String
  tags : Tags
  fields : String → Option FieldValue

/-- `(u *Upsd) gatherUps` for one device.  Input: the current value of
`u.batteryRuntimeTypeWarningIssued` (the latch), the device name, its
variables.  Output: the emitted metric, the new latch value, and whether
`u.Log.Warnf` fired during this call. -/
def gatherUps (latch : Bool) (name : String) (vars : List Variable) :
    Metric × Bool × Bool :=
  let metrics := normalize vars
  let tags0 : Tags :=
    tagsSet (tagsSet (tagsSet emptyTags "serial" (sprintfV (metrics "device.serial")))
      "ups_name" name) "model" (sprintfV (metrics "device.model"))
  let st := mapStatus metrics tags0
  let timeLeftS := (runtimeInt (metrics "battery.runtime")).getD 0
  let ok := (runtimeInt (metrics "battery.runtime")).isSome
  let warned := !ok && !latch
  let latch' := latch || !ok
  let fields : String → Option FieldValue := fun k =>
    if k = "status_flags" then some (.fUInt st.1)
    else if k = "ups.status" then some (.fVar (metrics "ups.status"))
    else if k = "input_voltage" then some (.fVar (metrics "input.voltage"))
    else if k = "load_percent" then some (.fVar (metrics "ups.load"))
    else if k = "battery_charge_percent" then some (.fVar (metrics "battery.charge"))
    else if k = "time_left_ns" then some (.fInt (wrap64 (timeLeftS * 1000000000)))
    else if k = "output_voltage" then some (.fVar (metrics "output.voltage"))
    else if k = "internal_temp" then some (.fVar (metrics "ups.temperature"))
    else if k = "battery_voltage" then some (.fVar (metrics "battery.voltage"))
    else if k = "input_frequency" then some (.fVar (metrics "input.frequency"))
    else if k = "nominal_input_voltage" then some (.fVar (metrics "input.voltage.nominal"))
    else if k = "nominal_battery_voltage" then some (.fVar (metrics "battery.voltage.nominal"))
    else if k = "nominal_power" then some (.fVar (metrics "ups.realpower.nominal"))
    else if k = "firmware" then some (.fVar (metrics "ups.firmware"))
    else if k = "battery_date" then some (.fVar (metrics "battery.mfr.date"))
    else none
  (⟨"upsd", st.2, fields⟩, latch', warned)

/-- Outcome of `nut.Connect`. -/
inductive ConnectRes where
  | ok
  | fail (e : String)
deriving DecidableEq, Repr

/-- Outcome of `client.Authenticate`. -/
inductive AuthRes where
  | ok
  | fail (e : String)
deriving DecidableEq, Repr

/-- Outcome of `client.GetUPSList`: on success, the listed devices in
protocol order as (Name, Variables) pairs. -/
inductive ListRes where
  | ok (devs : List (String × List Variable))
  | fail (e : String)
deriving DecidableEq, Repr

/-- Go map assignment `result[k] = v` on an association list keeping
insertion order (a repeated key overwrites in place). -/
def mapUpsert (m : List (String × List Variable)) (k : String)
    (v : List Variable) : List (String × List Variable) :=
  match m with
  | [] => [(k, v)]
  | (k', v') :: rest =>
    if k' = k then (k, v) :: rest else (k', v') :: mapUpsert rest k v

/-- The loop `for _, ups := range upsList \x7b result[ups.Name] = ups.Variables \x7d`. -/
def upsListToMap (devs : List (String × List Variable)) :
    List (String × List Variable) :=
  devs.foldl (fun m d => mapUpsert m d.1 d.2) []

/-- `(u *Upsd) fetchVariables`, with the network client replaced by the
per-phase outcomes.  Besides the Go return value it counts how many times
`client.Disconnect()` runs: the source registers `defer client.Disconnect()`
only after `GetUPSList` has already succeeded, so the early error returns
run no deferred call. -/
def fetchVariables (username password : String) (conn : ConnectRes)
    (auth : AuthRes) (lst : ListRes) :
    Except String (List (String × List Variable)) × Nat :=
  match conn with
  | .fail e => (.error ("connect: " ++ e), 0)
  | .ok =>
    let afterAuth : Except String (List (String × List Variable)) × Nat :=
      match lst with
      | .fail e => (.error ("getupslist: " ++ e), 0)
      | .ok devs => (.ok (upsListToMap devs), 1)
    if username != "" && password != "" then
      match auth with
      | .fail e => (.error ("auth: " ++ e), 0)
      | .ok => afterAuth
    else afterAuth

/-- The `for name, variables := range upsList` loop of `Gather`: runs
`gatherUps` on each device, threading the latch.  Returns the emitted
metrics in order, the final latch, and the per-device warning flags. -/
def gatherAll (latch : Bool) : List (String × List Variable) →
    List Metric × Bool × List Bool
  | [] => ([], latch, [])
  | (n, vs) :: rest =>
    let g := gatherUps latch n vs
    let r := gatherAll g.2.1 rest
    (g.1 :: r.1, r.2.1, g.2.2 :: r.2.2)

/-- `(u *Upsd) Gather`: fetch the device map, abort on error with no
emission, otherwise emit one record per map entry. -/
def Gather (username password : String) (conn : ConnectRes) (auth : AuthRes)
    (lst : ListRes) (latch : Bool) : Except String Unit × List Metric × Bool :=
  match fetchVariables username password conn auth lst with
  | (.error e, _) => (.error e, [], latch)
  | (.ok devs, _) =>
    let r := gatherAll latch devs
    (.ok (), r.1, r.2.1)

/-- Whether a device's normalized `battery.runtime` passes the int64
type assertion. -/
def okOf (d : String × List Variable) : Bool :=
  (runtimeInt ((normalize d.2) "battery.runtime")).isSome

/-- Pointwise description of the tag map produced by the status fold:
a key is `some "true"` when some table row with that tag key has its
token present, and is untouched otherwise. -/
theorem statusFold_snd (s : List String) (k : String) :
    ∀ (table : List StatusEntry) (st : Nat × Tags),
      (table.foldl (statusStep s) st).2 k =
        if table.any (fun e => decide (k = e.tag) && s.contains e.tok) then some "true"
        else st.2 k := by
  intro table
  induction table with
  | nil => intro st; simp
  | cons e rest ih =>
    intro st
    rw [List.foldl_cons, ih, List.any_cons]
    simp only [statusStep]
    cases hr : rest.any (fun e => decide (k = e.tag) && s.contains e.tok) <;>
      cases hc : s.contains e.tok <;>
      by_cases hk : k = e.tag <;>
      simp [hk, tagsSet]

/-- Per-bit description of the mask produced by the status fold. -/
theorem statusFold_fst (s : List String) (i : Nat) :
    ∀ (table : List StatusEntry) (st : Nat × Tags),
      (table.foldl (statusStep s) st).1.testBit i =
        (st.1.testBit i ||
          table.any (fun e => decide (e.bit = i) && s.contains e.tok)) := by
  intro table
  induction table with
  | nil => intro st; simp
  | cons e rest ih =>
    intro st
    rw [List.foldl_cons, ih, List.any_cons]
    simp only [statusStep]
    cases hr : rest.any (fun e => decide (e.bit = i) && s.contains e.tok) <;>
      cases hc : s.contains e.tok <;>
      by_cases hb : e.bit = i <;>
      simp [hb, Nat.testBit_lor, Nat.one_shiftLeft, Nat.testBit_two_pow,
        Bool.or_assoc]

/-- A status fold in which no table token is present changes nothing. -/
theorem statusFold_id (s : List String) :
    ∀ (table : List StatusEntry) (st : Nat × Tags),
      (∀ e ∈ table, s.contains e.tok = false) →
      table.foldl (statusStep s) st = st := by
  intro table
  induction table with
  | nil => intro st _; rfl
  | cons e rest ih =>
    intro st h
    rw [List.foldl_cons]
    have hstep : statusStep s st e = st := by
      unfold statusStep
      rw [h e (by simp)]
      rfl
    rw [hstep]
    exact ih st (fun e' he' => h e' (by simp [he']))

/-- The status fold only consumes the presence of each table token. -/
theorem statusFold_congr (s₁ s₂ : List String) :
    ∀ (table : List StatusEntry) (st : Nat × Tags),
      (∀ e ∈ table, s₁.contains e.tok = s₂.contains e.tok) →
      table.foldl (statusStep s₁) st = table.foldl (statusStep s₂) st := by
  intro table
  induction table with
  | nil => intro st _; rfl
  | cons e rest ih =>
    intro st h
    rw [List.foldl_cons, List.foldl_cons]
    have hstep : statusStep s₁ st e = statusStep s₂ st e := by
      unfold statusStep
      rw [h e (by simp)]
    rw [hstep]
    exact ih _ (fun e' he' => h e' (by simp [he']))

/-- The split token list of the `ups.status` field of a metrics map. -/
def statusTokens (metrics : Metrics) : List String :=
  stringFields (sprintfV (metrics "ups.status"))

/-- `mapStatus`, tag map described pointwise. -/
theorem mapStatus_snd (m : Metrics) (t : Tags) (k : String) :
    (mapStatus m t).2 k =
      if statusTable.any (fun e => decide (k = e.tag) && (statusTokens m).contains e.tok)
      then some "true" else t k :=
  statusFold_snd (statusTokens m) k statusTable (0, t)

/-- `mapStatus`, mask described per bit. -/
theorem mapStatus_fst (m : Metrics) (t : Tags) (i : Nat) :
    (mapStatus m t).1.testBit i =
      statusTable.any (fun e => decide (e.bit = i) && (statusTokens m).contains e.tok) := by
  have h := statusFold_fst (statusTokens m) i statusTable (0, t)
  simpa using h

/-- C2: bit i of the mask is set and the tag `status_<TOKEN>` is written
(always with value "true") exactly when the corresponding token occurs
among the whitespace-split tokens of the stringified `ups.status` value,
with the fixed assignment CAL=0, TRIM=1, BOOST=2, OL=3, OB=4, OVER=5,
LB=6, RB=7; no bit above 7 is ever set, and unrecognized tokens have no
effect.  In particular "OL" gives mask 8 with only `status_OL` written,
and "OB LB" gives mask 80 with exactly `status_OB` and `status_LB`. -/
theorem mapStatus_bits_and_tags (m : Metrics) (t : Tags) :
    ((mapStatus m t).1.testBit 0 = (statusTokens m).contains "CAL"
  ∧ (mapStatus m t).1.testBit 1 = (statusTokens m).contains "TRIM"
  ∧ (mapStatus m t).1.testBit 2 = (statusTokens m).contains "BOOST"
  ∧ (mapStatus m t).1.testBit 3 = (statusTokens m).contains "OL"
  ∧ (mapStatus m t).1.testBit 4 = (statusTokens m).contains "OB"
  ∧ (mapStatus m t).1.testBit 5 = (statusTokens m).contains "OVER"
  ∧ (mapStatus m t).1.testBit 6 = (statusTokens m).contains "LB"
  ∧ (mapStatus m t).1.testBit 7 = (statusTokens m).contains "RB")
  ∧ (∀ i : Nat, (mapStatus m t).1.testBit (i + 8) = false)
  ∧ ((mapStatus m t).2 "status_CAL" =
      (if (statusTokens m).contains "CAL" then some "true" else t "status_CAL")
  ∧ (mapStatus m t).2 "status_TRIM" =
      (if (statusTokens m).contains "TRIM" then some "true" else t "status_TRIM")
  ∧ (mapStatus m t).2 "status_BOOST" =
      (if (statusTokens m).contains "BOOST" then some "true" else t "status_BOOST")
  ∧ (mapStatus m t).2 "status_OL" =
      (if (statusTokens m).contains "OL" then some "true" else t "status_OL")
  ∧ (mapStatus m t).2 "status_OB" =
      (if (statusTokens m).contains "OB" then some "true" else t "status_OB")
  ∧ (mapStatus m t).2 "status_OVER" =
      (if (statusTokens m).contains "OVER" then some "true" else t "status_OVER")
  ∧ (mapStatus m t).2 "status_LB" =
      (if (statusTokens m).contains "LB" then some "true" else t "status_LB")
  ∧ (mapStatus m t).2 "status_RB" =
      (if (statusTokens m).contains "RB" then some "true" else t "status_RB"))
  ∧ ((mapStatus (metricsSet emptyMetrics "ups.status" (.vstr "OL")) emptyTags).1 = 8
  ∧ (mapStatus (metricsSet emptyMetrics "ups.status" (.vstr "OL")) emptyTags).2 "status_OL"
      = some "true"
  ∧ (mapStatus (metricsSet emptyMetrics "ups.status" (.vstr "OL")) emptyTags).2 "status_CAL" = none
  ∧ (mapStatus (metricsSet emptyMetrics "ups.status" (.vstr "OL")) emptyTags).2 "status_TRIM" = none
  ∧ (mapStatus (metricsSet emptyMetrics "ups.status" (.vstr "OL")) emptyTags).2 "status_BOOST" = none
  ∧ (mapStatus (metricsSet emptyMetrics "ups.status" (.vstr "OL")) emptyTags).2 "status_OB" = none
  ∧ (mapStatus (metricsSet emptyMetrics "ups.status" (.vstr "OL")) emptyTags).2 "status_OVER" = none
  ∧ (mapStatus (metricsSet emptyMetrics "ups.status" (.vstr "OL")) emptyTags).2 "status_LB" = none
  ∧ (mapStatus (metricsSet emptyMetrics "ups.status" (.vstr "OL")) emptyTags).2 "status_RB" = none)
  ∧ ((mapStatus (metricsSet emptyMetrics "ups.status" (.vstr "OB LB")) emptyTags).1 = 80
  ∧ (mapStatus (metricsSet emptyMetrics "ups.status" (.vstr "OB LB")) emptyTags).2 "status_OB"
      = some "true"
  ∧ (mapStatus (metricsSet emptyMetrics "ups.status" (.vstr "OB LB")) emptyTags).2 "status_LB"
      = some "true"
  ∧ (mapStatus (metricsSet emptyMetrics "ups.status" (.vstr "OB LB")) emptyTags).2 "status_CAL" = none
  ∧ (mapStatus (metricsSet emptyMetrics "ups.status" (.vstr "OB LB")) emptyTags).2 "status_OL" = none) := by
  refine ⟨⟨?_, ?_, ?_, ?_, ?_, ?_, ?_, ?_⟩, ?_, ⟨?_, ?_, ?_, ?_, ?_, ?_, ?_, ?_⟩, ?_, ?_⟩
  · rw [mapStatus_fst]; simp [statusTable]
  · rw [mapStatus_fst]; simp [statusTable]
  · rw [mapStatus_fst]; simp [statusTable]
  · rw [mapStatus_fst]; simp [statusTable]
  · rw [mapStatus_fst]; simp [statusTable]
  · rw [mapStatus_fst]; simp [statusTable]
  · rw [mapStatus_fst]; simp [statusTable]
  · rw [mapStatus_fst]; simp [statusTable]
  · intro i
    rw [mapStatus_fst]
    have hb : ∀ b : Nat, b < 8 → decide (b = i + 8) = false := by
      intro b h
      simp only [decide_eq_false_iff_not]
      omega
    simp [statusTable, hb]
  · rw [mapStatus_snd]; simp [statusTable]
  · rw [mapStatus_snd]; simp [statusTable]
  · rw [mapStatus_snd]; simp [statusTable]
  · rw [mapStatus_snd]; simp [statusTable]
  · rw [mapStatus_snd]; simp [statusTable]
  · rw [mapStatus_snd]; simp [statusTable]
  · rw [mapStatus_snd]; simp [statusTable]
  · rw [mapStatus_snd]; simp [statusTable]
  · refine ⟨?_, ?_, ?_, ?_, ?_, ?_, ?_, ?_, ?_⟩ <;> decide
  · refine ⟨?_, ?_, ?_, ?_, ?_⟩ <;> decide

/-- C3: the decoded mask and tag set depend only on which tokens occur in
the split status string, not on their order, multiplicity, or the
whitespace pattern. -/
theorem mapStatus_token_set_determines (m₁ m₂ : Metrics) (t : Tags)
    (h : ∀ tok : String,
      (statusTokens m₁).contains tok = (statusTokens m₂).contains tok) :
    mapStatus m₁ t = mapStatus m₂ t :=
  statusFold_congr (statusTokens m₁) (statusTokens m₂) statusTable (0, t)
    (fun e _ => h e.tok)

/-- Witness for C3 at "OB LB" versus "LB  OB LB" (reordered, duplicated,
double space). -/
theorem mapStatus_token_set_determines_w :
    mapStatus (metricsSet emptyMetrics "ups.status" (.vstr "OB LB")) emptyTags =
      mapStatus (metricsSet emptyMetrics "ups.status" (.vstr "LB  OB LB")) emptyTags := by
  apply mapStatus_token_set_determines
  intro tok
  have h1 : statusTokens (metricsSet emptyMetrics "ups.status" (.vstr "OB LB")) =
      ["OB", "LB"] := by decide
  have h2 : statusTokens (metricsSet emptyMetrics "ups.status" (.vstr "LB  OB LB")) =
      ["LB", "OB", "LB"] := by decide
  rw [h1, h2]
  cases ho : tok == "OB" <;> cases hl : tok == "LB" <;>
    simp [List.contains_cons, ho, hl] <;> tauto

/-- C4: when no recognized token occurs in the split status string (which
covers an absent `ups.status` key, whose stringification is "<nil>", the
empty string, and any string of unrecognized tokens), the decoder returns
mask 0 and leaves the tag set untouched. -/
theorem mapStatus_no_tokens (m : Metrics) (t : Tags)
    (h : ∀ e ∈ statusTable, (statusTokens m).contains e.tok = false) :
    mapStatus m t = (0, t) :=
  statusFold_id (statusTokens m) statusTable (0, t) h

/-- Witness for C4 at the absent-key metrics map. -/
theorem mapStatus_no_tokens_w :
    mapStatus emptyMetrics emptyTags = (0, emptyTags) :=
  mapStatus_no_tokens emptyMetrics emptyTags (by decide)

/-- C9: the decoder is a pure function and is idempotent on the tag set:
a second run on its own output changes neither the mask nor the tags. -/
theorem mapStatus_idempotent (m : Metrics) (t : Tags) :
    mapStatus m ((mapStatus m t).2) = mapStatus m t := by
  rw [Prod.ext_iff]
  constructor
  · apply Nat.eq_of_testBit_eq
    intro i
    rw [mapStatus_fst, mapStatus_fst]
  · funext k
    rw [mapStatus_snd m ((mapStatus m t).2) k, mapStatus_snd m t k]
    split_ifs with h
    · rfl
    · rfl

/-- C10: the decoder writes only the eight `status_*` tag keys, always
with value "true"; every other key of the tag set keeps its prior value. -/
theorem mapStatus_frame (m : Metrics) (t : Tags) (k : String) :
    (mapStatus m t).2 k = t k ∨
      (k ∈ statusTable.map StatusEntry.tag ∧ (mapStatus m t).2 k = some "true") := by
  rw [mapStatus_snd]
  by_cases h : statusTable.any
      (fun e => decide (k = e.tag) && (statusTokens m).contains e.tok) = true
  · right
    refine ⟨?_, by rw [if_pos h]⟩
    rcases List.any_eq_true.mp h with ⟨e, he, hke⟩
    have hk : k = e.tag := of_decide_eq_true (Bool.and_elim_left hke)
    exact hk ▸ List.mem_map_of_mem StatusEntry.tag he
  · left
    rw [if_neg h]

/-- The initial tag map built at the top of `gatherUps`, before the
status decoder runs. -/
def initialTags (name : String) (metrics : Metrics) : Tags :=
  tagsSet (tagsSet (tagsSet emptyTags "serial" (sprintfV (metrics "device.serial")))
    "ups_name" name) "model" (sprintfV (metrics "device.model"))

/-- The tag map of the emitted metric is the decoder's output on the
initial tag map. -/
theorem gatherUps_tags_eq (latch : Bool) (name : String) (vars : List Variable) :
    (gatherUps latch name vars).1.tags =
      (mapStatus (normalize vars) (initialTags name (normalize vars))).2 := rfl

/-- The `ups_name` tag always holds the protocol-reported device name. -/
theorem gatherUps_tag_ups_name (latch : Bool) (name : String) (vars : List Variable) :
    (gatherUps latch name vars).1.tags "ups_name" = some name := by
  rw [gatherUps_tags_eq, mapStatus_snd]
  simp [statusTable, initialTags, tagsSet]

/-- The `serial` tag always holds the textual form of `device.serial`. -/
theorem gatherUps_tag_serial (latch : Bool) (name : String) (vars : List Variable) :
    (gatherUps latch name vars).1.tags "serial" =
      some (sprintfV ((normalize vars) "device.serial")) := by
  rw [gatherUps_tags_eq, mapStatus_snd]
  simp [statusTable, initialTags, tagsSet]

/-- The `model` tag always holds the textual form of `device.model`. -/
theorem gatherUps_tag_model (latch : Bool) (name : String) (vars : List Variable) :
    (gatherUps latch name vars).1.tags "model" =
      some (sprintfV ((normalize vars) "device.model")) := by
  rw [gatherUps_tags_eq, mapStatus_snd]
  simp [statusTable, initialTags, tagsSet]

/-- C8: every device yields a metric whose tags carry `ups_name` equal to
the protocol-reported name and `serial`/`model` equal to the textual form
of `device.serial`/`device.model`; an absent variable yields the textual
placeholder "<nil>" and never an error. -/
theorem gatherUps_identity_tags (latch : Bool) (name : String) (vars : List Variable) :
    (gatherUps latch name vars).1.tags "ups_name" = some name
  ∧ (gatherUps latch name vars).1.tags "serial" =
      some (sprintfV ((normalize vars) "device.serial"))
  ∧ (gatherUps latch name vars).1.tags "model" =
      some (sprintfV ((normalize vars) "device.model"))
  ∧ ((normalize vars) "device.serial" = none →
      (gatherUps latch name vars).1.tags "serial" = some "<nil>")
  ∧ ((normalize vars) "device.model" = none →
      (gatherUps latch name vars).1.tags "model" = some "<nil>") := by
  refine ⟨gatherUps_tag_ups_name latch name vars, gatherUps_tag_serial latch name vars,
    gatherUps_tag_model latch name vars, ?_, ?_⟩
  · intro h
    rw [gatherUps_tag_serial latch name vars, h]
    rfl
  · intro h
    rw [gatherUps_tag_model latch name vars, h]
    rfl

/-- Witness for C8 at a device with no variables at all: both tags are
the "<nil>" placeholder. -/
theorem gatherUps_identity_tags_w :
    (gatherUps false "myups" []).1.tags "serial" = some "<nil>"
  ∧ (gatherUps false "myups" []).1.tags "model" = some "<nil>" :=
  ⟨(gatherUps_identity_tags false "myups" []).2.2.2.1 rfl,
   (gatherUps_identity_tags false "myups" []).2.2.2.2 rfl⟩

/-- The `time_left_ns` field is the wrapped int64 product of the runtime
fallback value and 10^9. -/
theorem gatherUps_field_time_left (latch : Bool) (name : String) (vars : List Variable) :
    (gatherUps latch name vars).1.fields "time_left_ns" =
      some (.fInt (wrap64 ((runtimeInt ((normalize vars) "battery.runtime")).getD 0
        * 1000000000))) := by
  simp [gatherUps]

/-- C5 (amended): when `battery.runtime` holds an int64 `r`, the emitted
`time_left_ns` equals the two's-complement 64-bit reduction of
`r * 1_000_000_000`, which is exactly `r * 1_000_000_000` whenever that
product fits in int64 (as at `r = 120`); when the stored value is not an
int64, the multiplication still runs on the fallback 0 and the field is 0. -/
theorem gatherUps_time_left_spec (latch : Bool) (name : String) (vars : List Variable) :
    (∀ r : Int, runtimeInt ((normalize vars) "battery.runtime") = some r →
      (gatherUps latch name vars).1.fields "time_left_ns" =
        some (.fInt (wrap64 (r * 1000000000)))
      ∧ (-(2 ^ 63) ≤ r * 1000000000 → r * 1000000000 < 2 ^ 63 →
          wrap64 (r * 1000000000) = r * 1000000000))
  ∧ (runtimeInt ((normalize vars) "battery.runtime") = none →
      (gatherUps latch name vars).1.fields "time_left_ns" = some (.fInt 0)) := by
  constructor
  · intro r h
    constructor
    · rw [gatherUps_field_time_left, h]
      rfl
    · intro h1 h2
      unfold wrap64
      have e1 : (2 : Int) ^ 63 = 9223372036854775808 := by norm_num
      have e2 : (2 : Int) ^ 64 = 18446744073709551616 := by norm_num
      rw [e1] at h1 h2 ⊢
      rw [e2]
      rw [Int.emod_eq_of_lt (by omega) (by omega)]
      omega
  · intro h
    rw [gatherUps_field_time_left, h]
    norm_num [wrap64]

/-- Witness for C5 at `battery.runtime` = 120. -/
theorem gatherUps_time_left_spec_w :
    (gatherUps false "u" [⟨"battery.runtime", VarValue.vint 120⟩]).1.fields "time_left_ns" =
      some (.fInt (wrap64 (120 * 1000000000)))
  ∧ wrap64 (120 * 1000000000) = 120 * 1000000000 :=
  ⟨((gatherUps_time_left_spec false "u" [⟨"battery.runtime", VarValue.vint 120⟩]).1 120
      (by decide)).1,
   ((gatherUps_time_left_spec false "u" [⟨"battery.runtime", VarValue.vint 120⟩]).1 120
      (by decide)).2 (by decide) (by decide)⟩

/-- Counterexample to C5 as stated: at `battery.runtime` = 10^10 (a valid
int64), the emitted field is the wrapped product, not `r * 1_000_000_000`. -/
theorem gatherUps_time_left_cex :
    (gatherUps false "u" [⟨"battery.runtime", VarValue.vint 10000000000⟩]).1.fields
        "time_left_ns" = some (.fInt (-8446744073709551616))
  ∧ ((-8446744073709551616 : Int) ≠ 10000000000 * 1000000000) := by
  exact ⟨by decide, by decide⟩

/-- The latch after one `gatherUps` call: set once a malformed runtime is
seen, never cleared. -/
theorem gatherUps_latch_eq (latch : Bool) (name : String) (vars : List Variable) :
    (gatherUps latch name vars).2.1 = (latch || !(okOf (name, vars))) := rfl

/-- Whether one `gatherUps` call warns: only on a malformed runtime with
the latch still clear. -/
theorem gatherUps_warned_eq (latch : Bool) (name : String) (vars : List Variable) :
    (gatherUps latch name vars).2.2 = (!(okOf (name, vars)) && !latch) := rfl

/-- `gatherAll` emits one warning flag per device. -/
theorem gatherAll_warn_length : ∀ (latch : Bool) (devs : List (String × List Variable)),
    ((gatherAll latch devs).2.2).length = devs.length := by
  intro latch devs
  induction devs generalizing latch with
  | nil => rfl
  | cons d rest ih =>
    obtain ⟨n, vs⟩ := d
    simp only [gatherAll, List.length_cons]
    rw [ih]

/-- The final latch: true exactly when it started true or some device in
the run had a malformed runtime — in particular it is never reset. -/
theorem gatherAll_latch : ∀ (latch : Bool) (devs : List (String × List Variable)),
    (gatherAll latch devs).2.1 = (latch || devs.any (fun d => !(okOf d))) := by
  intro latch devs
  induction devs generalizing latch with
  | nil => simp [gatherAll]
  | cons d rest ih =>
    obtain ⟨n, vs⟩ := d
    simp only [gatherAll, List.any_cons]
    rw [ih, gatherUps_latch_eq, Bool.or_assoc]

/-- Once the latch is set, no device of any later run warns. -/
theorem gatherAll_warn_latched : ∀ (devs : List (String × List Variable)),
    (gatherAll true devs).2.2 = List.replicate devs.length false := by
  intro devs
  induction devs with
  | nil => rfl
  | cons d rest ih =>
    obtain ⟨n, vs⟩ := d
    simp only [gatherAll, List.length_cons, List.replicate_succ]
    rw [gatherUps_warned_eq, gatherUps_latch_eq]
    simp [ih]

theorem getD_replicate_false : ∀ (n i : Nat),
    (List.replicate n false).getD i false = false := by
  intro n
  induction n with
  | zero => intro i; simp
  | succ m ih =>
    intro i
    cases i with
    | zero => simp [List.replicate_succ]
    | succ j => simp [List.replicate_succ, ih j]

/-- C6: starting with the latch clear, device encounter i (across the
whole run, i.e. across consecutive poll cycles on one collector instance)
warns exactly when its runtime value is malformed and every earlier
encounter was well-formed; once the latch is true no encounter ever warns
again, and the latch is never reset. -/
theorem warning_fires_once (devs : List (String × List Variable)) :
    (∀ i : Nat, i < devs.length →
      ((gatherAll false devs).2.2).getD i false =
        (!(okOf (devs.getD i ("", []))) && (devs.take i).all okOf))
  ∧ ((gatherAll true devs).2.2 = List.replicate devs.length false)
  ∧ (∀ latch : Bool,
      (gatherAll latch devs).2.1 = (latch || devs.any (fun d => !(okOf d)))) := by
  refine ⟨?_, gatherAll_warn_latched devs, fun latch => gatherAll_latch latch devs⟩
  induction devs with
  | nil => intro i h; exact absurd h (Nat.not_lt_zero i)
  | cons d rest ih =>
    intro i h
    obtain ⟨n, vs⟩ := d
    simp only [gatherAll]
    rw [gatherUps_warned_eq, gatherUps_latch_eq]
    cases hok : okOf (n, vs) with
    | true =>
      cases i with
      | zero => simp [hok]
      | succ j =>
        simp only [List.getD_cons_succ, List.take_succ_cons, List.all_cons, hok,
          Bool.true_and, Bool.false_or, Bool.not_true, Bool.or_false]
        exact ih j (by simpa using h)
    | false =>
      cases i with
      | zero => simp [hok]
      | succ j =>
        simp only [List.getD_cons_succ, List.take_succ_cons, List.all_cons, hok,
          Bool.false_and, Bool.and_false, Bool.false_or, Bool.not_false, Bool.or_true]
        rw [gatherAll_warn_latched, getD_replicate_false]

/-- Witness for C6: two consecutive devices with a string-typed runtime —
the first warns, the second does not. -/
theorem warning_fires_once_w :
    ((gatherAll false [("u1", [⟨"battery.runtime", VarValue.vstr "x"⟩]),
        ("u2", [⟨"battery.runtime", VarValue.vstr "x"⟩])]).2.2).getD 0 false = true
  ∧ ((gatherAll false [("u1", [⟨"battery.runtime", VarValue.vstr "x"⟩]),
        ("u2", [⟨"battery.runtime", VarValue.vstr "x"⟩])]).2.2).getD 1 false = false := by
  constructor
  · rw [(warning_fires_once [("u1", [⟨"battery.runtime", VarValue.vstr "x"⟩]),
        ("u2", [⟨"battery.runtime", VarValue.vstr "x"⟩])]).1 0 (by decide)]
    decide
  · rw [(warning_fires_once [("u1", [⟨"battery.runtime", VarValue.vstr "x"⟩]),
        ("u2", [⟨"battery.runtime", VarValue.vstr "x"⟩])]).1 1 (by decide)]
    decide

/-- Inserting a key not already present appends the binding. -/
theorem mapUpsert_notmem (m : List (String × List Variable)) (k : String)
    (v : List Variable) (h : ∀ p ∈ m, p.1 ≠ k) :
    mapUpsert m k v = m ++ [(k, v)] := by
  induction m with
  | nil => rfl
  | cons p rest ih =>
    obtain ⟨k', v'⟩ := p
    have hk : ¬(k' = k) := h (k', v') (by simp)
    simp only [mapUpsert, if_neg hk, List.cons_append]
    rw [ih (fun q hq => h q (by simp [hq]))]

/-- Building the device map from a duplicate-free device list keeps the
list unchanged, one entry per device. -/
theorem upsListToMap_go : ∀ (devs acc : List (String × List Variable)),
    (acc.map Prod.fst ++ devs.map Prod.fst).Nodup →
    devs.foldl (fun m d => mapUpsert m d.1 d.2) acc = acc ++ devs := by
  intro devs
  induction devs with
  | nil => intro acc _; simp
  | cons d rest ih =>
    intro acc h
    obtain ⟨n, vs⟩ := d
    rw [List.foldl_cons]
    have hsplit := List.nodup_append.mp h
    have hnot : ∀ p ∈ acc, p.1 ≠ n := by
      intro p hp
      have hmem : p.1 ∈ acc.map Prod.fst := List.mem_map_of_mem Prod.fst hp
      have hdisj := hsplit.2.2 hmem
      simp only [List.map_cons, List.mem_cons] at hdisj
      tauto
    rw [mapUpsert_notmem acc n vs hnot]
    have h2 : ((acc ++ [(n, vs)]).map Prod.fst ++ rest.map Prod.fst).Nodup := by
      simpa [List.append_assoc] using h
    rw [ih (acc ++ [(n, vs)]) h2]
    simp

theorem upsListToMap_nodup (devs : List (String × List Variable))
    (h : (devs.map Prod.fst).Nodup) : upsListToMap devs = devs := by
  have hg := upsListToMap_go devs [] (by simpa using h)
  simpa [upsListToMap] using hg

/-- `gatherAll` emits exactly one metric per device. -/
theorem gatherAll_length : ∀ (latch : Bool) (devs : List (String × List Variable)),
    (gatherAll latch devs).1.length = devs.length := by
  intro latch devs
  induction devs generalizing latch with
  | nil => rfl
  | cons d rest ih =>
    obtain ⟨n, vs⟩ := d
    simp only [gatherAll, List.length_cons]
    rw [ih]

/-- The emitted metrics carry the device names in order. -/
theorem gatherAll_names : ∀ (latch : Bool) (devs : List (String × List Variable)),
    (gatherAll latch devs).1.map (fun mr => mr.tags "ups_name") =
      devs.map (fun d => some d.1) := by
  intro latch devs
  induction devs generalizing latch with
  | nil => rfl
  | cons d rest ih =>
    obtain ⟨n, vs⟩ := d
    simp only [gatherAll, List.map_cons]
    rw [ih, gatherUps_tag_ups_name]

/-- C7: a failure of connect, authenticate, or list-devices aborts the
cycle with a single error wrapped with the failing phase, emitting no
metric; once listing succeeds, the per-device loop is total and emits one
record per device (device names being unique), carrying each device name. -/
theorem gather_cycle_semantics (u p : String) (latch : Bool) :
    (∀ (e : String) (a : AuthRes) (l : ListRes),
        Gather u p (.fail e) a l latch = (.error ("connect: " ++ e), [], latch))
  ∧ (∀ (e : String) (l : ListRes), (u != "" && p != "") = true →
        Gather u p .ok (.fail e) l latch = (.error ("auth: " ++ e), [], latch))
  ∧ (∀ e : String,
        Gather u p .ok .ok (.fail e) latch = (.error ("getupslist: " ++ e), [], latch))
  ∧ (∀ (e : String) (a : AuthRes), (u != "" && p != "") = false →
        Gather u p .ok a (.fail e) latch = (.error ("getupslist: " ++ e), [], latch))
  ∧ (∀ devs : List (String × List Variable), (devs.map Prod.fst).Nodup →
        (Gather u p .ok .ok (.ok devs) latch).1 = .ok ()
        ∧ (Gather u p .ok .ok (.ok devs) latch).2.1.length = devs.length
        ∧ (Gather u p .ok .ok (.ok devs) latch).2.1.map (fun mr => mr.tags "ups_name")
            = devs.map (fun d => some d.1)) := by
  refine ⟨?_, ?_, ?_, ?_, ?_⟩
  · intro e a l
    rfl
  · intro e l h
    simp only [Gather, fetchVariables, if_pos h]
  · intro e
    by_cases h : (u != "" && p != "") = true
    · simp only [Gather, fetchVariables, if_pos h]
    · simp only [Gather, fetchVariables, if_neg h]
  · intro e a h
    have h' : ¬((u != "" && p != "") = true) := by simp [h]
    simp only [Gather, fetchVariables, if_neg h']
  · intro devs hnodup
    have hfetch : fetchVariables u p .ok .ok (.ok devs) = (.ok devs, 1) := by
      by_cases h : (u != "" && p != "") = true
      · simp only [fetchVariables, if_pos h, upsListToMap_nodup devs hnodup]
      · simp only [fetchVariables, if_neg h, upsListToMap_nodup devs hnodup]
    refine ⟨?_, ?_, ?_⟩
    · simp only [Gather, hfetch]
    · simp only [Gather, hfetch]
      exact gatherAll_length latch devs
    · simp only [Gather, hfetch]
      exact gatherAll_names latch devs

/-- Witness for C7: an auth failure aborts with one wrapped error and no
emission; a successful listing of one device emits one record. -/
theorem gather_cycle_semantics_w :
    Gather "user" "pass" .ok (.fail "denied") (.ok []) false =
      (.error "auth: denied", [], false)
  ∧ (Gather "user" "pass" .ok .ok (.ok [("ups1", [])]) false).2.1.length = 1 := by
  constructor
  · exact (gather_cycle_semantics "user" "pass" false).2.1 "denied" (.ok []) (by decide)
  · exact ((gather_cycle_semantics "user" "pass" false).2.2.2.2 [("ups1", [])]
      (by simp)).2.1

/-- C1: evaluation of the connection-release discipline.  The source
registers `defer client.Disconnect()` only after `GetUPSList` has
succeeded, so on the auth-failure and list-failure exit paths — both
after a successful connect — Disconnect runs zero times; only the fully
successful cycle disconnects, exactly once. -/
theorem fetchVariables_disconnect_paths :
    (fetchVariables "user" "pass" .ok (.fail "denied") (.ok [])).2 = 0
  ∧ (fetchVariables "user" "pass" .ok .ok (.fail "boom")).2 = 0
  ∧ (fetchVariables "user" "pass" .ok .ok (.ok [("ups1", [])])).2 = 1
  ∧ (fetchVariables "user" "pass" .ok (.fail "denied") (.ok [])).1 =
      .error "auth: denied"
  ∧ (fetchVariables "user" "pass" .ok .ok (.fail "boom")).1 =
      .error "getupslist: boom" := by
  refine ⟨by decide, by decide, by decide, rfl, rfl⟩

end Upsd
